import Mathlib

/-!
Verification of the batch evaluation engine (`BatchEvaluator`, `ConcurrencyManager`,
`ProgressTracker`, `StreamingExporter`) against its natural-language specification.
Each definition is a shallow embedding of the corresponding TypeScript source;
the theorems settle the spec's claims about retry policy, commit ordering,
concurrency/rate-limit gating, bookkeeping invariants, result assembly,
webhook export retries, and progress-percentage arithmetic.
-/

namespace EvalKit

/-! ### String helpers (JS `String.prototype.includes`, `toLowerCase`) -/

/-- Containment of the character list `pat` in a character list, as
`String.prototype.includes` (the empty pattern is contained in every string). -/
def charsContains (pat : List Char) : List Char → Bool
  | [] => pat.isEmpty
  | c :: rest => pat.isPrefixOf (c :: rest) || charsContains pat rest

/-- JS `s.includes(pat)`. -/
def strIncludes (s pat : String) : Bool := charsContains pat.toList s.toList

/-- JS `s.toLowerCase()` (ASCII, which covers the retry patterns involved). -/
def strToLower (s : String) : String := ⟨s.toList.map Char.toLower⟩

/-! ### Retry classifier and backoff (batch-evaluator.ts lines 302-312, 403-434) -/

/-- Modelled from `BatchEvaluator.shouldRetry`: the default transient-error
substring patterns, matched case-insensitively. -/
def transientErrors : List String :=
  ["ECONNRESET", "ETIMEDOUT", "ENOTFOUND", "rate limit", "429", "503", "timeout"]

/-- Default branch of `BatchEvaluator.shouldRetry`: case-insensitive substring
match of the error message against `transientErrors`. -/
def defaultTransientMatch (errorMessage : String) : Bool :=
  transientErrors.any (fun p => strIncludes (strToLower errorMessage) (strToLower p))

/-- `BatchEvaluator.shouldRetry(errorMessage, currentAttempts, maxRetries)`
(batch-evaluator.ts lines 403-434); `retryOnErrors` is
`config.retryConfig?.retryOnErrors`. A non-empty user list replaces the default
classifier (case-sensitive `includes`); an empty or absent list falls through to
the default case-insensitive transient-error match. -/
def shouldRetry (retryOnErrors : Option (List String)) (errorMessage : String)
    (currentAttempts maxRetries : Nat) : Bool :=
  if maxRetries ≤ currentAttempts then false
  else
    match retryOnErrors with
    | some patterns =>
      if 0 < patterns.length then patterns.any (fun p => strIncludes errorMessage p)
      else defaultTransientMatch errorMessage
    | none => defaultTransientMatch errorMessage

/-- JS truthiness of an optional boolean (`undefined` is falsy). -/
def truthy : Option Bool → Bool
  | none => false
  | some b => b

/-- `BatchEvaluatorConfig.retryConfig` (batch/types.ts): every field optional.
The source's doc comments state `maxRetries // Default: 3`,
`retryDelay // Default: 1000ms`, `exponentialBackoff // Default: true`. -/
structure RetryConfig where
  maxRetries : Option Nat
  retryDelay : Option Nat
  exponentialBackoff : Option Bool
  retryOnErrors : Option (List String)

/-- Delay slept before retry attempt `k` (1-based index of the retry about to be
made), from batch-evaluator.ts lines 307-310:
`baseDelay = retryConfig?.retryDelay ?? 1000`;
`delay = retryConfig?.exponentialBackoff ? baseDelay * 2^(retryCount-1) : baseDelay`.
Note the conditional is a JS truthiness test: an unset `exponentialBackoff`
selects the constant branch. -/
def retryDelayFor (rc : Option RetryConfig) (k : Nat) : Nat :=
  let baseDelay := (rc.bind (fun c => c.retryDelay)).getD 1000
  if truthy (rc.bind (fun c => c.exponentialBackoff)) then baseDelay * 2 ^ (k - 1)
  else baseDelay

/-! ### Rows, merging, evaluator outcomes, per-row results -/

/-- An input row: own enumerable fields of a `BatchInputRow`, field name to value. -/
abbrev Row := List (String × String)

/-- JS object spread `{...defaults, ...row}` (batch-evaluator.ts lines 230-233):
row fields override default fields; lookups find the row's value when the key is
present in the row and the default's value otherwise. -/
def spreadMerge (defaults row : Row) : Row :=
  defaults.filter (fun p => (row.lookup p.1).isNone) ++ row

/-- A combined score is either a number or the sentinel string `"N/A"`. -/
inductive Score
  | num (value : ℚ)
  | na
deriving DecidableEq, Repr

/-- The slice of an `EvaluatorResult` that the batch layer inspects:
`tokenTotal` models `processingStats.tokenUsage?.totalTokens`. -/
structure EvaluatorResult where
  evaluatorName : String
  tokenTotal : Option Nat
deriving DecidableEq, Repr

/-- The fields of a `BatchEvaluationResult` (batch/types.ts) that the claims
concern. `rowId`/`timestamp` (uuid/clock strings) are omitted. -/
structure BatchEvaluationResult where
  rowIndex : Nat
  input : Row
  results : List EvaluatorResult
  score : Option Score
  durationMs : Nat
  retryCount : Nat
  error : Option String
deriving DecidableEq, Repr

/-- The slice of `BatchEvaluatorConfig` that drives `processRow`:
`streaming` is `streamExport` being configured (so `this.streamingExporter` is
set), `hasOnResult` is `onResult` being configured, `hasState` is the state
manager being active. -/
structure BatchEvaluatorConfig where
  retryConfig : Option RetryConfig
  defaultInput : Row
  calculateCombinedScore : Option (List EvaluatorResult → Score)
  streaming : Bool
  hasOnResult : Bool
  hasState : Bool
  stopOnError : Bool

/-- Effective `maxRetries`: `config.retryConfig?.maxRetries ?? 3`. -/
def maxRetriesOf (cfg : BatchEvaluatorConfig) : Nat :=
  (cfg.retryConfig.bind (fun c => c.maxRetries)).getD 3

/-- Observable steps of one `processRow` invocation, in program order. -/
inductive Ev
  | runEval
  | sinkExport
  | onResultCall
  | commitAppend
  | trackSuccess
  | stateUpdate
  | trackRetry (msg : String) (retryCount : Nat)
  | sleepDelay (ms : Nat)
  | trackFailure
deriving DecidableEq, Repr

/-- Environment for one attempt of the `while (true)` loop: either
`runEvaluators` rejects with a message, or it resolves with the outcome list,
in which case the streaming sink's `exportResult` and the `onResult` callback
each either return or reject. -/
inductive AttemptOutcome
  | evalFail (msg : String)
  | evalOk (outcomes : List EvaluatorResult) (sink : Except String Unit)
      (callback : Except String Unit)

/-- The success-path `BatchEvaluationResult` (batch-evaluator.ts lines 252-263):
merged effective input, the outcome list, the user combiner's score when
configured, no error. -/
def mkSuccessResult (cfg : BatchEvaluatorConfig) (row : Row) (idx dur rc : Nat)
    (outs : List EvaluatorResult) : BatchEvaluationResult :=
  { rowIndex := idx, input := spreadMerge cfg.defaultInput row, results := outs,
    score := cfg.calculateCombinedScore.map (fun f => f outs),
    durationMs := dur, retryCount := rc, error := none }

/-- The terminal-failure `BatchEvaluationResult` (batch-evaluator.ts lines
317-327): raw pre-merge row, empty outcome list, `"N/A"` score when a combiner
is configured, the error message. -/
def mkFailureResult (cfg : BatchEvaluatorConfig) (row : Row) (idx dur rc : Nat)
    (msg : String) : BatchEvaluationResult :=
  { rowIndex := idx, input := row, results := [],
    score := if cfg.calculateCombinedScore.isSome then some Score.na else none,
    durationMs := dur, retryCount := rc, error := some msg }

/-- Commit tail after a successful export/callback (lines 279-293): append the
result and mark the index processed, record tracker success, update state when
the state manager is active. -/
def commitEvents (cfg : BatchEvaluatorConfig) : List Ev :=
  [Ev.commitAppend, Ev.trackSuccess] ++ (if cfg.hasState then [Ev.stateUpdate] else [])

/-- One pass through the `try` block of `processRow`'s loop (lines 237-295) at
current retry count `rc`: run the evaluator set; on success build the result,
export to the streaming sink first (when streaming), then invoke `onResult`
(when configured), then commit. Any rejection is the attempt's error, handed to
the `catch` block. -/
def attemptOnce (cfg : BatchEvaluatorConfig) (row : Row) (idx dur rc : Nat) :
    AttemptOutcome → List Ev × Except String BatchEvaluationResult
  | AttemptOutcome.evalFail msg => ([Ev.runEval], Except.error msg)
  | AttemptOutcome.evalOk outs sink callback =>
    let res := mkSuccessResult cfg row idx dur rc outs
    if cfg.streaming then
      match sink with
      | Except.error e => ([Ev.runEval, Ev.sinkExport], Except.error e)
      | Except.ok _ =>
        if cfg.hasOnResult then
          match callback with
          | Except.error e => ([Ev.runEval, Ev.sinkExport, Ev.onResultCall], Except.error e)
          | Except.ok _ =>
            ([Ev.runEval, Ev.sinkExport, Ev.onResultCall] ++ commitEvents cfg, Except.ok res)
        else ([Ev.runEval, Ev.sinkExport] ++ commitEvents cfg, Except.ok res)
    else
      if cfg.hasOnResult then
        match callback with
        | Except.error e => ([Ev.runEval, Ev.onResultCall], Except.error e)
        | Except.ok _ => ([Ev.runEval, Ev.onResultCall] ++ commitEvents cfg, Except.ok res)
      else ([Ev.runEval] ++ commitEvents cfg, Except.ok res)

/-- The error an attempt environment produces under configuration `cfg`
(which step of the try block rejects first), if any. -/
def attemptErr (cfg : BatchEvaluatorConfig) : AttemptOutcome → Option String
  | AttemptOutcome.evalFail m => some m
  | AttemptOutcome.evalOk _ sink callback =>
    if cfg.streaming then
      match sink with
      | Except.error e => some e
      | Except.ok _ =>
        if cfg.hasOnResult then
          match callback with
          | Except.error e => some e
          | Except.ok _ => none
        else none
    else
      if cfg.hasOnResult then
        match callback with
        | Except.error e => some e
        | Except.ok _ => none
      else none

/-- The `while (true)` retry loop of `processRow` (batch-evaluator.ts lines
237-350), driven by a list of attempt environments. Returns the event trace,
the committed `BatchEvaluationResult`, and whether `stopOnError` aborts the
batch; `none` when the environment list is exhausted before the loop exits
(the budget theorem shows `maxRetries + 1` environments always suffice).
`dur` stands in for the `Date.now() - startTime` wall-clock reading. -/
def processRowLoop (cfg : BatchEvaluatorConfig) (row : Row) (idx dur : Nat) :
    List AttemptOutcome → Nat → Option (List Ev × BatchEvaluationResult × Bool)
  | [], _ => none
  | a :: rest, rc =>
    match attemptOnce cfg row idx dur rc a with
    | (evs, Except.ok res) => some (evs, res, false)
    | (evs, Except.error msg) =>
      if shouldRetry (cfg.retryConfig.bind (fun c => c.retryOnErrors)) msg rc
          (maxRetriesOf cfg) then
        let rc2 := rc + 1
        let delay := retryDelayFor cfg.retryConfig rc2
        (processRowLoop cfg row idx dur rest rc2).map
          (fun t => (evs ++ [Ev.trackRetry msg rc2, Ev.sleepDelay delay] ++ t.1, t.2))
      else
        some (evs ++ [Ev.commitAppend, Ev.trackFailure]
                ++ (if cfg.hasState then [Ev.stateUpdate] else []),
              mkFailureResult cfg row idx dur rc msg, cfg.stopOnError)

/-- Number of evaluator-set attempts recorded in a trace. -/
def attemptsOf (evs : List Ev) : Nat :=
  evs.countP (fun e => match e with | Ev.runEval => true | _ => false)

/-! ### Concurrency gate (concurrency-manager.ts)

`ConcurrencyManager.run` is an async method; its body is a sequence of
synchronous blocks separated by `await` suspension points, and JavaScript's
event loop may interleave blocks of different calls at those points (an `await`
always defers its continuation to a microtask, even on an already-resolved
promise). One `run(task)` call passes through the phases

  `start`      -- about to execute the `waitForSlot` body (the capacity check);
  `parked`     -- pushed onto the waiter queue inside `waitForSlot`;
  `afterSlot`  -- past `await waitForSlot()`, about to execute the
                  `checkRateLimit` body;
  `sleeping`   -- inside `checkRateLimit`'s rate-limit sleep;
  `afterRate`  -- past `await checkRateLimit()`, about to run
                  `activeCount++; requestTimestamps.push(Date.now());
                   cleanupOldTimestamps()` and start the task;
  `running`    -- the task body is executing;
  `done`       -- the `finally` block (`activeCount--; processQueue()`) ran.

`sleeping` stores the absolute wake time and the stale `now` captured at the
top of `checkRateLimit` (the code reuses it after the sleep). Only the
per-minute cap is modelled (`ratePerMinute`); the claims do not involve the
per-hour cap. -/

/-- Phase of one `run` call with respect to the gate. -/
inductive Phase
  | start
  | parked
  | afterSlot
  | sleeping (wake now0 : Int)
  | afterRate
  | running
  | done
deriving DecidableEq, Repr

/-- State of a `ConcurrencyManager` together with its in-flight callers and a
wall clock (`Date.now()`). -/
structure GateState where
  maxConcurrency : Nat
  ratePerMinute : Option Nat
  active : Nat
  queue : List Nat
  timestamps : List Int
  clock : Int
  tasks : List Phase
deriving DecidableEq, Repr

/-- `Math.min(...list)` for a non-empty list (the code only applies it to a
list whose length is at least the cap, hence non-empty). -/
def listMin : List Int → Int
  | [] => 0
  | a :: rest => rest.foldl min a

/-- `ConcurrencyManager.processQueue` (lines 103-117): when capacity is
available, shift the queue head, re-check capacity, and either resume the
waiter (it re-enters at `afterSlot`) or unshift it back. -/
def processQueue (s : GateState) : GateState :=
  if s.active < s.maxConcurrency then
    match s.queue with
    | [] => s
    | j :: rest =>
      if s.active < s.maxConcurrency then
        { s with queue := rest, tasks := s.tasks.set j Phase.afterSlot }
      else { s with queue := j :: rest }
  else s

/-- Scheduler actions: advance the caller at index `i` through its next
synchronous block, or advance the wall clock. -/
inductive GAction
  | work (i : Nat)
  | tick (d : Int)

/-- One scheduler step. `work i` executes caller `i`'s next synchronous block:
the `waitForSlot` body, the `checkRateLimit` body (counting timestamps in the
last 60 s and either proceeding or starting the single sleep — the code does
not re-evaluate the window after the sleep), admission
(`activeCount++`, timestamp push, cleanup), or task completion (`finally`:
`activeCount--; processQueue()`). Steps on parked, still-sleeping, or finished
callers are no-ops. -/
def gateStep (s : GateState) : GAction → GateState
  | GAction.tick d => { s with clock := s.clock + d }
  | GAction.work i =>
    match s.tasks.get? i with
    | none => s
    | some Phase.start =>
      if s.active < s.maxConcurrency then { s with tasks := s.tasks.set i Phase.afterSlot }
      else { s with tasks := s.tasks.set i Phase.parked, queue := s.queue ++ [i] }
    | some Phase.parked => s
    | some Phase.afterSlot =>
      match s.ratePerMinute with
      | none => { s with tasks := s.tasks.set i Phase.afterRate }
      | some m =>
        let recent := s.timestamps.filter (fun ts => decide (s.clock - ts < 60000))
        if m ≤ recent.length then
          let oldest := listMin recent
          let waitTime := 60000 - (s.clock - oldest) + 100
          { s with tasks := s.tasks.set i (Phase.sleeping (s.clock + waitTime) s.clock) }
        else
          { s with tasks := s.tasks.set i Phase.afterRate,
                   timestamps := s.timestamps.filter (fun ts => decide (s.clock - ts < 3600000)) }
    | some (Phase.sleeping wake now0) =>
      if wake ≤ s.clock then
        { s with tasks := s.tasks.set i Phase.afterRate,
                 timestamps := s.timestamps.filter (fun ts => decide (now0 - ts < 3600000)) }
      else s
    | some Phase.afterRate =>
      let withTs := s.timestamps ++ [s.clock]
      { s with active := s.active + 1,
               timestamps :=
                 if s.ratePerMinute.isSome then
                   withTs.filter (fun ts => decide (s.clock - 3600000 ≤ ts))
                 else withTs,
               tasks := s.tasks.set i Phase.running }
    | some Phase.running =>
      processQueue { s with active := s.active - 1, tasks := s.tasks.set i Phase.done }
    | some Phase.done => s

/-- Run a schedule of actions from a state. -/
def runSched (s : GateState) (acts : List GAction) : GateState :=
  acts.foldl gateStep s

/-- Initial gate state: capacity `maxC`, `n` callers submitted, optional
per-minute cap, clock 0. -/
def gateInit (maxC n : Nat) (rpm : Option Nat) : GateState :=
  { maxConcurrency := maxC, ratePerMinute := rpm, active := 0, queue := [],
    timestamps := [], clock := 0, tasks := List.replicate n Phase.start }

/-- The deterministic JavaScript event-loop order for two `run` calls made in
the same synchronous block (as `evaluate`'s chunk dispatch does via
`batch.map`): both capacity checks run first, then both rate-limit bodies,
then both admissions — each caller resumes in FIFO microtask order at each
`await` boundary. -/
def raceSched : List GAction :=
  [GAction.work 0, GAction.work 1, GAction.work 0, GAction.work 1,
   GAction.work 0, GAction.work 1]

/-- Number of admission timestamps lying in the 60-second window starting
at `lo`. -/
def admissionsInWindow (tss : List Int) (lo : Int) : Nat :=
  (tss.filter (fun ts => decide (lo ≤ ts) && decide (ts < lo + 60000))).length

/-! ### Batch bookkeeping (evaluate / processRow / ProgressTracker counters)

The composite state the bookkeeping invariant speaks about: the orchestrator's
`results` list (represented by each committed result's `rowIndex`) and
`processedRowIndices` set, and the tracker's `successfulRows`/`failedRows`
counters. The commit section of `processRow` (success: lines 280-293; terminal
failure: lines 329-340) mutates all of them synchronously, so commits are
modelled as atomic. -/

/-- Bookkeeping slice of a running batch. -/
structure BookState where
  results : List Nat
  processedRowIndices : List Nat
  successfulRows : Nat
  failedRows : Nat
deriving DecidableEq, Repr

/-- JS `Set.prototype.add`. -/
def setInsert (s : List Nat) (x : Nat) : List Nat := if x ∈ s then s else x :: s

/-- One commit (`(rowIndex, success?)`): append to `results`, add the index to
`processedRowIndices`, bump `tracker.recordSuccess` or `tracker.recordFailure`. -/
def commitRow (st : BookState) (c : Nat × Bool) : BookState :=
  { results := st.results ++ [c.1],
    processedRowIndices := setInsert st.processedRowIndices c.1,
    successfulRows := if c.2 then st.successfulRows + 1 else st.successfulRows,
    failedRows := if c.2 then st.failedRows else st.failedRows + 1 }

/-- Start of `evaluate` with `startIndex = s` and no resume snapshot:
indices `0..s-1` are pre-added to the processed set (batch-evaluator.ts lines
67-70) and `tracker.skipRows(s)` bumps `successfulRows` by `s`
(progress-tracker.ts lines 91-94); `results` stays empty. -/
def initBook (startIndex : Nat) : BookState :=
  { results := [], processedRowIndices := List.range startIndex,
    successfulRows := startIndex, failedRows := 0 }

/-- Bookkeeping state after a batch started at `startIndex` performs the given
commits. -/
def runBook (startIndex : Nat) (commits : List (Nat × Bool)) : BookState :=
  commits.foldl commitRow (initBook startIndex)

/-! ### Final result assembly (BatchEvaluator.buildResult, lines 453-490) -/

/-- JS truthiness of the `error` field (`r.error` with `undefined` and `""`
falsy), as used by `buildResult`'s filters. -/
def hasError (r : BatchEvaluationResult) : Bool :=
  match r.error with
  | none => false
  | some s => !(s == "")

/-- Summary part of a `BatchResult`. -/
structure BatchSummary where
  averageProcessingTime : ℚ
  totalTokensUsed : Option Nat
  errorRate : ℚ
deriving DecidableEq, Repr

/-- Count/summary part of a `BatchResult` (batch id and wall-clock fields,
which come from `randomUUID`/`Date`, are omitted). -/
structure BatchResult where
  totalRows : Nat
  successfulRows : Nat
  failedRows : Nat
  results : List BatchEvaluationResult
  summary : BatchSummary
deriving DecidableEq, Repr

/-- `BatchEvaluator.buildResult` (lines 453-490), translated clause by clause:
filters for the success/failure counts, a fold for the duration sum, a nested
fold for the token sum, the `> 0` guard on reporting tokens, and the
length-guarded divisions. Divisions are exact rational arithmetic, which
matches the JS doubles on these magnitudes. -/
def buildResult (results : List BatchEvaluationResult) : BatchResult :=
  let successfulRows := (results.filter (fun r => !hasError r)).length
  let failedRows := (results.filter (fun r => hasError r)).length
  let processingTimes := results.map (fun r => r.durationMs)
  let averageProcessingTime : ℚ :=
    if 0 < processingTimes.length then
      ((processingTimes.foldl (fun sum t => sum + t) 0 : Nat) : ℚ) / processingTimes.length
    else 0
  let totalTokensUsed :=
    results.foldl
      (fun sum r => sum + r.results.foldl (fun rSum e => rSum + e.tokenTotal.getD 0) 0) 0
  { totalRows := results.length, successfulRows := successfulRows,
    failedRows := failedRows, results := results,
    summary :=
      { averageProcessingTime := averageProcessingTime,
        totalTokensUsed := if 0 < totalTokensUsed then some totalTokensUsed else none,
        errorRate := if 0 < results.length then (failedRows : ℚ) / results.length else 0 } }

/-! ### Streaming sink (streaming-exporter.ts) -/

/-- Outcome of one `fetch` of the webhook destination: the promise rejects
(network failure / abort) or resolves with a status code. -/
inductive FetchOutcome
  | netError (msg : String)
  | status (code : Nat)
deriving DecidableEq, Repr

/-- `Response.ok`: status in the inclusive range 200-299. -/
def fetchOk : FetchOutcome → Bool
  | FetchOutcome.netError _ => false
  | FetchOutcome.status c => decide (200 ≤ c) && decide (c < 300)

/-- Error message thrown for a non-ok first attempt
(`Webhook request failed: ...`) or carried by a network failure. -/
def fetchErrMsg : FetchOutcome → String
  | FetchOutcome.netError m => m
  | FetchOutcome.status c => "Webhook request failed: " ++ toString c

/-- Error message for a failed retry (`Webhook retry failed: ...`). -/
def retryErrMsg : FetchOutcome → String
  | FetchOutcome.netError m => m
  | FetchOutcome.status c => "Webhook retry failed: " ++ toString c

/-- Slice of `webhookOptions` that drives the retry policy. -/
structure WebhookOptions where
  retryOnFailure : Option Bool
deriving DecidableEq, Repr

/-- Observable steps of `StreamingExporter.exportResult`. -/
inductive SinkEvent
  | fetchCall
  | sleepMs (ms : Nat)
  | logError (msg : String)
  | fileAppend
deriving DecidableEq, Repr

/-- `StreamingExporter.exportToWebhook` (streaming-exporter.ts lines 127-193):
fetch once; on rejection or non-ok status, if `retryOnFailure` (default true)
sleep 1 s and fetch again, logging (not rethrowing) a second failure; with
`retryOnFailure` false, log the first failure. The function never propagates an
error — it always returns normally. -/
def exportToWebhook (opts : WebhookOptions) (first second : FetchOutcome) :
    List SinkEvent × Except String Unit :=
  let retryOnFailure := opts.retryOnFailure.getD true
  if fetchOk first then ([SinkEvent.fetchCall], Except.ok ())
  else if retryOnFailure then
    if fetchOk second then
      ([SinkEvent.fetchCall, SinkEvent.sleepMs 1000, SinkEvent.fetchCall], Except.ok ())
    else
      ([SinkEvent.fetchCall, SinkEvent.sleepMs 1000, SinkEvent.fetchCall,
        SinkEvent.logError ("Failed to export result to webhook: " ++ retryErrMsg second)],
       Except.ok ())
  else
    ([SinkEvent.fetchCall,
      SinkEvent.logError ("Failed to export result to webhook: " ++ fetchErrMsg first)],
     Except.ok ())

/-- Streaming destination kinds. -/
inductive StreamFormat
  | csv
  | json
  | webhook
deriving DecidableEq, Repr

/-- `StreamingExporter.exportResult` (lines 47-64): drop the row when the
configured filter rejects it, then dispatch on the format. The csv/json
branches append to a file and propagate a write failure (`fileWrite`); the
webhook branch delegates to `exportToWebhook`, which swallows failures. -/
def exportResult (fmt : StreamFormat) (filterPass : Bool)
    (fileWrite : Except String Unit) (opts : WebhookOptions)
    (first second : FetchOutcome) : List SinkEvent × Except String Unit :=
  if !filterPass then ([], Except.ok ())
  else
    match fmt with
    | StreamFormat.csv => ([SinkEvent.fileAppend], fileWrite)
    | StreamFormat.json => ([SinkEvent.fileAppend], fileWrite)
    | StreamFormat.webhook => exportToWebhook opts first second

/-! ### Progress tracker percentages (progress-tracker.ts) -/

/-- A JavaScript number as the tracker observes it: NaN, the infinities, or a
finite value (exact rational; signed zero is not distinguished). -/
inductive JsNum
  | nan
  | posInf
  | negInf
  | num (q : ℚ)
deriving DecidableEq, Repr

/-- IEEE-754 division as JS `/` on the cases the tracker can produce:
`0/0 = NaN`, `x/0 = ±Infinity` for finite nonzero `x`. -/
def jsDiv : JsNum → JsNum → JsNum
  | JsNum.nan, _ => JsNum.nan
  | _, JsNum.nan => JsNum.nan
  | JsNum.num a, JsNum.num b =>
    if b = 0 then
      (if a = 0 then JsNum.nan else if 0 < a then JsNum.posInf else JsNum.negInf)
    else JsNum.num (a / b)
  | JsNum.num _, JsNum.posInf => JsNum.num 0
  | JsNum.num _, JsNum.negInf => JsNum.num 0
  | JsNum.posInf, JsNum.num b => if 0 ≤ b then JsNum.posInf else JsNum.negInf
  | JsNum.negInf, JsNum.num b => if 0 ≤ b then JsNum.negInf else JsNum.posInf
  | JsNum.posInf, _ => JsNum.nan
  | JsNum.negInf, _ => JsNum.nan

/-- IEEE-754 multiplication as JS `*`: NaN absorbs, `±Infinity * 0 = NaN`. -/
def jsMul : JsNum → JsNum → JsNum
  | JsNum.nan, _ => JsNum.nan
  | _, JsNum.nan => JsNum.nan
  | JsNum.num a, JsNum.num b => JsNum.num (a * b)
  | JsNum.posInf, JsNum.posInf => JsNum.posInf
  | JsNum.posInf, JsNum.negInf => JsNum.negInf
  | JsNum.negInf, JsNum.posInf => JsNum.negInf
  | JsNum.negInf, JsNum.negInf => JsNum.posInf
  | JsNum.posInf, JsNum.num b =>
    if b = 0 then JsNum.nan else if 0 < b then JsNum.posInf else JsNum.negInf
  | JsNum.num a, JsNum.posInf =>
    if a = 0 then JsNum.nan else if 0 < a then JsNum.posInf else JsNum.negInf
  | JsNum.negInf, JsNum.num b =>
    if b = 0 then JsNum.nan else if 0 < b then JsNum.negInf else JsNum.posInf
  | JsNum.num a, JsNum.negInf =>
    if a = 0 then JsNum.nan else if 0 < a then JsNum.negInf else JsNum.posInf

/-- Mutable fields of a `ProgressTracker` that feed event construction
(`emitInterval`/`lastEmitTime` gate only the rate-limited `maybeEmit` path,
not the lifecycle emissions the claim concerns). -/
structure ProgressTrackerState where
  totalRows : Nat
  processedRows : Nat
  successfulRows : Nat
  failedRows : Nat
  processingTimes : List Nat
  totalTokens : Nat
  hasOnProgress : Bool
deriving DecidableEq, Repr

/-- Progress event kinds. -/
inductive ProgressEventType
  | started
  | progress
  | completed
  | error
  | retry
  | paused
  | resumed
deriving DecidableEq, Repr

/-- The fields of a `ProgressEvent` the claims concern (timestamp and the
cost/token estimates are omitted). -/
structure ProgressEvent where
  type : ProgressEventType
  totalRows : Nat
  processedRows : Nat
  successfulRows : Nat
  failedRows : Nat
  percentComplete : JsNum
  averageProcessingTime : Option ℚ
deriving DecidableEq, Repr

/-- `(this.processedRows / this.totalRows) * 100` — the unguarded division of
progress-tracker.ts lines 139 and 183. -/
def percentComplete (st : ProgressTrackerState) : JsNum :=
  jsMul (jsDiv (JsNum.num st.processedRows) (JsNum.num st.totalRows)) (JsNum.num 100)

/-- Event construction shared by `emit` (lines 113-155) and
`getCurrentProgress` (lines 160-190): length-guarded average, unguarded
percentage, `averageProcessingTime` reported only when positive. -/
def mkProgressEvent (st : ProgressTrackerState) (t : ProgressEventType) : ProgressEvent :=
  let avg : ℚ :=
    if 0 < st.processingTimes.length then
      ((st.processingTimes.foldl (fun a b => a + b) 0 : Nat) : ℚ) / st.processingTimes.length
    else 0
  { type := t, totalRows := st.totalRows, processedRows := st.processedRows,
    successfulRows := st.successfulRows, failedRows := st.failedRows,
    percentComplete := percentComplete st,
    averageProcessingTime := if 0 < avg then some avg else none }

/-- `ProgressTracker.emit`: returns early when no `onProgress` callback is
configured, otherwise builds the event and invokes the callback with it. -/
def emit (st : ProgressTrackerState) (t : ProgressEventType) : Option ProgressEvent :=
  if st.hasOnProgress then some (mkProgressEvent st t) else none

/-- `ProgressTracker.start` emits a `started` event immediately. -/
def trackerStart (st : ProgressTrackerState) : Option ProgressEvent :=
  emit st ProgressEventType.started

/-- `ProgressTracker.complete` emits a `completed` event immediately. -/
def trackerComplete (st : ProgressTrackerState) : Option ProgressEvent :=
  emit st ProgressEventType.completed

/-- `ProgressTracker.getCurrentProgress`: the same derived fields, with event
type `progress`, returned without emission. -/
def getCurrentProgress (st : ProgressTrackerState) : ProgressEvent :=
  mkProgressEvent st ProgressEventType.progress

/-! ### Concrete instances used by the witnesses -/

/-- A configuration with streaming, `onResult` and state management all active. -/
def cfgFull : BatchEvaluatorConfig :=
  { retryConfig := none, defaultInput := [("language", "en")],
    calculateCombinedScore := none, streaming := true, hasOnResult := true,
    hasState := true, stopOnError := false }

/-- A retry configuration with every field unset (`retryConfig: \x7b\x7d`). -/
def rcUnset : RetryConfig :=
  { maxRetries := none, retryDelay := none, exponentialBackoff := none,
    retryOnErrors := none }

/-- A retry configuration with `exponentialBackoff` explicitly true. -/
def rcExplicit : RetryConfig :=
  { maxRetries := none, retryDelay := none, exponentialBackoff := some true,
    retryOnErrors := none }

/-- A retry configuration with `maxRetries = 2` and explicit exponential backoff. -/
def rcTwo : RetryConfig :=
  { maxRetries := some 2, retryDelay := none, exponentialBackoff := some true,
    retryOnErrors := none }

/-- A bare configuration with a user combiner and a two-retry budget. -/
def cfgBare : BatchEvaluatorConfig :=
  { retryConfig := some rcTwo, defaultInput := [("language", "en")],
    calculateCombinedScore := some (fun _ => Score.num 0), streaming := false,
    hasOnResult := false, hasState := false, stopOnError := false }

/-- A sample input row. -/
def rowA : Row := [("candidateText", "A")]

/-- A sample evaluator outcome list. -/
def outsA : List EvaluatorResult := [{ evaluatorName := "E", tokenTotal := some 5 }]

/-- Another sample input row. -/
def rowX : Row := [("candidateText", "x")]

/-- An environment with a retryable failure then a non-retryable one. -/
def envTwoFail : List AttemptOutcome :=
  [AttemptOutcome.evalFail "rate limit exceeded",
   AttemptOutcome.evalFail "schema violation"]

/-- The event trace `processRowLoop` produces on `envTwoFail` under `cfgBare`. -/
def evsTwoFail : List Ev :=
  [Ev.runEval, Ev.trackRetry "rate limit exceeded" 1, Ev.sleepDelay 1000,
   Ev.runEval, Ev.commitAppend, Ev.trackFailure]

/-- An environment with a single non-retryable failure. -/
def envOneFail : List AttemptOutcome := [AttemptOutcome.evalFail "schema violation"]

/-- A sample tracker state for an empty input: `totalRows = 0`, nothing
processed, a progress callback configured. -/
def trackerEmpty : ProgressTrackerState :=
  { totalRows := 0, processedRows := 0, successfulRows := 0, failedRows := 0,
    processingTimes := [], totalTokens := 0, hasOnProgress := true }

/-! ### Helper lemmas -/

lemma foldl_add_eq_sum (l : List Nat) : ∀ a : Nat, l.foldl (fun s t => s + t) a = a + l.sum := by
  induction l with
  | nil => simp
  | cons x xs ih => intro a; simp only [List.foldl_cons, ih, List.sum_cons]; omega

lemma shouldRetry_lt (pats : Option (List String)) (msg : String) (rc maxR : Nat)
    (h : shouldRetry pats msg rc maxR = true) : rc < maxR := by
  by_contra hc
  rw [Nat.not_lt] at hc
  rw [shouldRetry.eq_def, if_pos hc] at h
  exact Bool.false_ne_true h

lemma shouldRetry_denied (pats : Option (List String)) (msg : String) (rc maxR : Nat)
    (h : maxR ≤ rc) : shouldRetry pats msg rc maxR = false := by
  rw [shouldRetry.eq_def, if_pos h]

lemma attemptsOf_attemptOnce (cfg : BatchEvaluatorConfig) (row : Row) (idx dur rc : Nat)
    (a : AttemptOutcome) : attemptsOf (attemptOnce cfg row idx dur rc a).1 = 1 := by
  cases a with
  | evalFail m => rfl
  | evalOk outs sink callback =>
    rw [attemptOnce.eq_def]
    cases hs : cfg.streaming <;> cases hr : cfg.hasOnResult <;>
      cases sink <;> cases callback <;>
      simp [attemptsOf, commitEvents, List.countP_append, List.countP_cons]

lemma attemptErr_of_attemptOnce (cfg : BatchEvaluatorConfig) (row : Row) (idx dur rc : Nat)
    (a : AttemptOutcome) (m : String)
    (h : (attemptOnce cfg row idx dur rc a).2 = Except.error m) :
    attemptErr cfg a = some m := by
  cases a with
  | evalFail m2 =>
    simp only [attemptOnce] at h
    cases h
    rfl
  | evalOk outs sink callback =>
    rw [attemptOnce.eq_def] at h
    rw [attemptErr.eq_def]
    cases hs : cfg.streaming <;> cases hr : cfg.hasOnResult <;>
      cases sink <;> cases callback <;>
      simp [hs, hr] at h ⊢ <;> exact h

lemma attemptOnce_ok_shape (cfg : BatchEvaluatorConfig) (row : Row) (idx dur rc : Nat)
    (a : AttemptOutcome) (res1 : BatchEvaluationResult)
    (h : (attemptOnce cfg row idx dur rc a).2 = Except.ok res1) :
    ∃ outs, res1 = mkSuccessResult cfg row idx dur rc outs := by
  cases a with
  | evalFail m => simp [attemptOnce] at h
  | evalOk outs sink callback =>
    refine ⟨outs, ?_⟩
    rw [attemptOnce.eq_def] at h
    cases hs : cfg.streaming <;> cases hr : cfg.hasOnResult <;>
      cases sink <;> cases callback <;>
      simp [hs, hr] at h <;> exact h.symm

lemma processRowLoop_budget (cfg : BatchEvaluatorConfig) (row : Row) (idx dur : Nat)
    (env : List AttemptOutcome) :
    ∀ (rc : Nat) (evs : List Ev) (res : BatchEvaluationResult) (stop : Bool),
      rc ≤ maxRetriesOf cfg →
      processRowLoop cfg row idx dur env rc = some (evs, res, stop) →
      1 ≤ attemptsOf evs ∧ attemptsOf evs + rc ≤ maxRetriesOf cfg + 1 ∧
        res.retryCount ≤ maxRetriesOf cfg := by
  induction env with
  | nil => intro rc evs res stop _ h; simp [processRowLoop] at h
  | cons a rest ih =>
    intro rc evs res stop hrc h
    simp only [processRowLoop] at h
    rcases ha : attemptOnce cfg row idx dur rc a with ⟨evs1, r1⟩
    rw [ha] at h
    have hat : attemptsOf evs1 = 1 := by
      have := attemptsOf_attemptOnce cfg row idx dur rc a
      rw [ha] at this; exact this
    cases r1 with
    | ok res1 =>
      simp only [Option.some.injEq, Prod.mk.injEq] at h
      obtain ⟨h1, h2, _⟩ := h
      subst h1; subst h2
      obtain ⟨outs, ho⟩ := attemptOnce_ok_shape cfg row idx dur rc a res1 (by rw [ha])
      subst ho
      exact ⟨by omega, by omega, by simp [mkSuccessResult]; omega⟩
    | error msg =>
      dsimp only at h
      cases hsr : shouldRetry (cfg.retryConfig.bind fun c => c.retryOnErrors) msg rc
          (maxRetriesOf cfg) with
      | true =>
        rw [if_pos hsr] at h
        obtain ⟨⟨evs2, res2, stop2⟩, ht, hft⟩ := Option.map_eq_some'.mp h
        simp only [Prod.mk.injEq] at hft
        obtain ⟨he, hr2, _⟩ := hft
        subst he; subst hr2
        have hlt := shouldRetry_lt _ _ _ _ hsr
        obtain ⟨ih1, ih2, ih3⟩ := ih (rc + 1) evs2 res2 stop2 (by omega) ht
        have hsum : attemptsOf (evs1 ++ [Ev.trackRetry msg (rc + 1),
            Ev.sleepDelay (retryDelayFor cfg.retryConfig (rc + 1))] ++ evs2)
            = attemptsOf evs1 + attemptsOf evs2 := by
          simp [attemptsOf, List.countP_append, List.countP_cons]
        rw [hsum]
        exact ⟨by omega, by omega, ih3⟩
      | false =>
        rw [if_neg (by rw [hsr]; exact Bool.false_ne_true)] at h
        simp only [Option.some.injEq, Prod.mk.injEq] at h
        obtain ⟨h1, h2, _⟩ := h
        subst h1; subst h2
        have hsum : attemptsOf (evs1 ++ [Ev.commitAppend, Ev.trackFailure]
            ++ (if cfg.hasState then [Ev.stateUpdate] else [])) = attemptsOf evs1 := by
          cases hst : cfg.hasState <;>
            simp [attemptsOf, List.countP_append, List.countP_cons]
        rw [hsum]
        exact ⟨by omega, by omega, by simp [mkFailureResult]; omega⟩

lemma processRowLoop_total (cfg : BatchEvaluatorConfig) (row : Row) (idx dur : Nat)
    (env : List AttemptOutcome) :
    ∀ rc : Nat, rc ≤ maxRetriesOf cfg → maxRetriesOf cfg + 1 - rc ≤ env.length →
      (processRowLoop cfg row idx dur env rc).isSome = true := by
  induction env with
  | nil => intro rc hrc hlen; simp at hlen; omega
  | cons a rest ih =>
    intro rc hrc hlen
    simp only [processRowLoop]
    rcases ha : attemptOnce cfg row idx dur rc a with ⟨evs1, r1⟩
    cases r1 with
    | ok res1 => simp
    | error msg =>
      dsimp only
      cases hsr : shouldRetry (cfg.retryConfig.bind fun c => c.retryOnErrors) msg rc
          (maxRetriesOf cfg) with
      | true =>
        rw [if_pos rfl]
        simp only [Option.isSome_map']
        have hlt := shouldRetry_lt _ _ _ _ hsr
        exact ih (rc + 1) (by omega) (by simp at hlen ⊢; omega)
      | false =>
        rw [if_neg (fun hc => Bool.false_ne_true hc)]
        simp

lemma processRowLoop_shape (cfg : BatchEvaluatorConfig) (row : Row) (idx dur : Nat)
    (env : List AttemptOutcome) :
    ∀ (rc : Nat) (evs : List Ev) (res : BatchEvaluationResult) (stop : Bool),
      processRowLoop cfg row idx dur env rc = some (evs, res, stop) →
      (∃ rc2 outs, res = mkSuccessResult cfg row idx dur rc2 outs)
        ∨ (∃ rc2 m, res = mkFailureResult cfg row idx dur rc2 m) := by
  induction env with
  | nil => intro rc evs res stop h; simp [processRowLoop] at h
  | cons a rest ih =>
    intro rc evs res stop h
    simp only [processRowLoop] at h
    rcases ha : attemptOnce cfg row idx dur rc a with ⟨evs1, r1⟩
    rw [ha] at h
    cases r1 with
    | ok res1 =>
      simp only [Option.some.injEq, Prod.mk.injEq] at h
      obtain ⟨_, h2, _⟩ := h
      subst h2
      obtain ⟨outs, ho⟩ := attemptOnce_ok_shape cfg row idx dur rc a res1 (by rw [ha])
      exact Or.inl ⟨rc, outs, ho⟩
    | error msg =>
      dsimp only at h
      cases hsr : shouldRetry (cfg.retryConfig.bind fun c => c.retryOnErrors) msg rc
          (maxRetriesOf cfg) with
      | true =>
        rw [if_pos hsr] at h
        obtain ⟨⟨evs2, res2, stop2⟩, ht, hft⟩ := Option.map_eq_some'.mp h
        simp only [Prod.mk.injEq] at hft
        obtain ⟨_, hr2, _⟩ := hft
        subst hr2
        exact ih (rc + 1) evs2 res2 stop2 ht
      | false =>
        rw [if_neg (by rw [hsr]; exact Bool.false_ne_true)] at h
        simp only [Option.some.injEq, Prod.mk.injEq] at h
        obtain ⟨_, h2, _⟩ := h
        subst h2
        exact Or.inr ⟨rc, msg, rfl⟩

lemma processRowLoop_attempts_pos (cfg : BatchEvaluatorConfig) (row : Row) (idx dur : Nat)
    (env : List AttemptOutcome) (rc : Nat) (evs : List Ev)
    (res : BatchEvaluationResult) (stop : Bool)
    (h : processRowLoop cfg row idx dur env rc = some (evs, res, stop)) :
    1 ≤ attemptsOf evs := by
  cases env with
  | nil => simp [processRowLoop] at h
  | cons a rest =>
    simp only [processRowLoop] at h
    rcases ha : attemptOnce cfg row idx dur rc a with ⟨evs1, r1⟩
    rw [ha] at h
    have hat : attemptsOf evs1 = 1 := by
      have := attemptsOf_attemptOnce cfg row idx dur rc a
      rw [ha] at this; exact this
    simp only [attemptsOf] at hat ⊢
    cases r1 with
    | ok res1 =>
      simp only [Option.some.injEq, Prod.mk.injEq] at h
      obtain ⟨h1, _, _⟩ := h
      subst h1; omega
    | error msg =>
      dsimp only at h
      cases hsr : shouldRetry (cfg.retryConfig.bind fun c => c.retryOnErrors) msg rc
          (maxRetriesOf cfg) with
      | true =>
        rw [if_pos hsr] at h
        obtain ⟨⟨evs2, res2, stop2⟩, ht, hft⟩ := Option.map_eq_some'.mp h
        simp only [Prod.mk.injEq] at hft
        obtain ⟨he, _, _⟩ := hft
        subst he
        simp only [List.countP_append]
        omega
      | false =>
        rw [if_neg (by rw [hsr]; exact Bool.false_ne_true)] at h
        simp only [Option.some.injEq, Prod.mk.injEq] at h
        obtain ⟨h1, _, _⟩ := h
        subst h1
        simp only [List.countP_append]
        omega

lemma processRowLoop_lastError (cfg : BatchEvaluatorConfig) (row : Row) (idx dur : Nat)
    (env : List AttemptOutcome) :
    ∀ (rc : Nat) (evs : List Ev) (res : BatchEvaluationResult) (stop : Bool) (m : String),
      processRowLoop cfg row idx dur env rc = some (evs, res, stop) →
      res.error = some m →
      (env[attemptsOf evs - 1]?).bind (fun a => attemptErr cfg a) = some m := by
  induction env with
  | nil => intro rc evs res stop m h _; simp [processRowLoop] at h
  | cons a rest ih =>
    intro rc evs res stop m h hres
    simp only [processRowLoop] at h
    rcases ha : attemptOnce cfg row idx dur rc a with ⟨evs1, r1⟩
    rw [ha] at h
    have hat : attemptsOf evs1 = 1 := by
      have := attemptsOf_attemptOnce cfg row idx dur rc a
      rw [ha] at this; exact this
    cases r1 with
    | ok res1 =>
      simp only [Option.some.injEq, Prod.mk.injEq] at h
      obtain ⟨_, h2, _⟩ := h
      subst h2
      obtain ⟨outs, ho⟩ := attemptOnce_ok_shape cfg row idx dur rc a res1 (by rw [ha])
      rw [ho] at hres
      simp [mkSuccessResult] at hres
    | error msg =>
      dsimp only at h
      cases hsr : shouldRetry (cfg.retryConfig.bind fun c => c.retryOnErrors) msg rc
          (maxRetriesOf cfg) with
      | true =>
        rw [if_pos hsr] at h
        obtain ⟨⟨evs2, res2, stop2⟩, ht, hft⟩ := Option.map_eq_some'.mp h
        simp only [Prod.mk.injEq] at hft
        obtain ⟨he, hr2, _⟩ := hft
        subst he; subst hr2
        have hpos := processRowLoop_attempts_pos cfg row idx dur rest (rc + 1) evs2 res2 stop2 ht
        have hx := ih (rc + 1) evs2 res2 stop2 m ht hres
        have hsum : attemptsOf (evs1 ++ [Ev.trackRetry msg (rc + 1),
            Ev.sleepDelay (retryDelayFor cfg.retryConfig (rc + 1))] ++ evs2)
            = 1 + attemptsOf evs2 := by
          simp only [attemptsOf, List.countP_append, List.countP_cons] at hat ⊢
          simp [hat]
        rw [hsum]
        obtain ⟨k, hk⟩ : ∃ k, attemptsOf evs2 = k + 1 :=
          ⟨attemptsOf evs2 - 1, by omega⟩
        rw [hk] at hx ⊢
        have h1 : 1 + (k + 1) - 1 = k + 1 := by omega
        have h2 : k + 1 - 1 = k := by omega
        rw [h1]
        rw [h2] at hx
        simpa using hx
      | false =>
        rw [if_neg (by rw [hsr]; exact Bool.false_ne_true)] at h
        simp only [Option.some.injEq, Prod.mk.injEq] at h
        obtain ⟨h1, h2, _⟩ := h
        subst h1; subst h2
        simp only [mkFailureResult, Option.some.injEq] at hres
        subst hres
        have hsum : attemptsOf (evs1 ++ [Ev.commitAppend, Ev.trackFailure]
            ++ (if cfg.hasState then [Ev.stateUpdate] else [])) = 1 := by
          simp only [attemptsOf, List.countP_append, List.countP_cons] at hat ⊢
          cases hst : cfg.hasState <;> simp [hat]
        rw [hsum]
        have h0 : (1 : Nat) - 1 = 0 := rfl
        rw [h0]
        simp only [List.getElem?_cons_zero, Option.some_bind]
        exact attemptErr_of_attemptOnce cfg row idx dur rc a msg (by rw [ha])

lemma spreadMerge_lookup (defaults row : Row) (k : String) :
    (spreadMerge defaults row).lookup k
      = (match row.lookup k with
         | some v => some v
         | none => defaults.lookup k) := by
  induction defaults with
  | nil => cases hr : row.lookup k <;> simp [spreadMerge, hr]
  | cons p ds ih =>
    obtain ⟨pk, pv⟩ := p
    by_cases hp : (row.lookup pk).isNone
    · have hsm : spreadMerge ((pk, pv) :: ds) row = (pk, pv) :: spreadMerge ds row := by
        simp [spreadMerge, List.filter_cons, hp]
      rw [hsm]
      cases hk : (k == pk) with
      | true =>
        have hke : k = pk := eq_of_beq hk
        subst hke
        rw [Option.isNone_iff_eq_none] at hp
        simp [List.lookup, hp]
      | false =>
        simp only [List.lookup, hk] at ih ⊢
        rw [ih]
    · have hsm : spreadMerge ((pk, pv) :: ds) row = spreadMerge ds row := by
        simp only [spreadMerge, List.filter_cons]
        rw [if_neg (by simpa using hp)]
      rw [hsm, ih]
      cases hr : row.lookup k with
      | some v => rfl
      | none =>
        cases hk : (k == pk) with
        | true =>
          have hke : k = pk := eq_of_beq hk
          subst hke
          rw [hr] at hp
          simp at hp
        | false => simp [List.lookup, hk]

lemma foldl_add_map {α : Type} (f : α → Nat) (l : List α) :
    ∀ a : Nat, l.foldl (fun s x => s + f x) a = a + (l.map f).sum := by
  induction l with
  | nil => simp
  | cons x xs ih =>
    intro a
    simp only [List.foldl_cons, ih, List.map_cons, List.sum_cons]
    omega

lemma runBook_foldl (cs : List (Nat × Bool)) :
    ∀ st : BookState,
      (∀ c ∈ cs, c.1 ∉ st.processedRowIndices) → (cs.map Prod.fst).Nodup →
      ((cs.foldl commitRow st).processedRowIndices.length
          = st.processedRowIndices.length + cs.length
        ∧ (cs.foldl commitRow st).results.length = st.results.length + cs.length
        ∧ (cs.foldl commitRow st).successfulRows + (cs.foldl commitRow st).failedRows
          = st.successfulRows + st.failedRows + cs.length) := by
  induction cs with
  | nil => intro st _ _; simp
  | cons c cs ih =>
    intro st hfresh hnd
    simp only [List.foldl_cons]
    have hc : c.1 ∉ st.processedRowIndices := hfresh c (List.mem_cons_self c cs)
    have hstep : (commitRow st c).processedRowIndices = c.1 :: st.processedRowIndices := by
      simp [commitRow, setInsert, hc]
    rw [List.map_cons, List.nodup_cons] at hnd
    have hfresh2 : ∀ d ∈ cs, d.1 ∉ (commitRow st c).processedRowIndices := by
      intro d hd
      rw [hstep]
      simp only [List.mem_cons]
      push_neg
      refine ⟨?_, hfresh d (List.mem_cons_of_mem c hd)⟩
      intro he
      exact hnd.1 (he ▸ List.mem_map_of_mem Prod.fst hd)
    obtain ⟨ih1, ih2, ih3⟩ := ih (commitRow st c) hfresh2 hnd.2
    refine ⟨?_, ?_, ?_⟩
    · rw [ih1, hstep]; simp; omega
    · rw [ih2]; simp [commitRow]; omega
    · rw [ih3]; rcases c with ⟨i, b⟩; cases b <;> simp [commitRow] <;> omega

/-! ### Claim theorems -/

/-- C1 (code_bug evidence): the spec claims that with gate capacity C, at
every observation point the number of admitted, not-yet-completed tasks is at
most C. In the event-loop semantics of `ConcurrencyManager.run`, the capacity
check in `waitForSlot` and the `activeCount++` are separated by two `await`
suspension points, so two calls submitted in the same synchronous block (the
deterministic event-loop schedule `raceSched`, exactly what `evaluate`'s chunk
dispatch produces) both pass the check while `active = 0` and then both
increment: with capacity 1, both task bodies run with `active = 2 > 1`. -/
theorem concurrency_gate_capacity_violated :
    (runSched (gateInit 1 2 none) raceSched).active = 2
    ∧ (runSched (gateInit 1 2 none) raceSched).tasks = [Phase.running, Phase.running]
    ∧ (gateInit 1 2 none).maxConcurrency = 1 := by
  refine ⟨by decide, by decide, rfl⟩

/-- C3 (code_bug evidence): the spec claims every 60-second window holds at
most M admissions and that the gate re-evaluates the window after its
rate-limit sleep. With per-minute cap 1, two calls submitted in the same
synchronous block both count an empty timestamp window in `checkRateLimit`
before either records its admission timestamp; both are admitted at clock 0,
so the 60-second window starting at 0 holds 2 admissions > 1. (The model's
`sleeping → afterRate` transition also mirrors the code's single sleep with no
re-evaluation of the window afterwards.) -/
theorem rate_limit_window_violated :
    (runSched (gateInit 5 2 (some 1)) raceSched).timestamps = [0, 0]
    ∧ admissionsInWindow (runSched (gateInit 5 2 (some 1)) raceSched).timestamps 0 = 2
    ∧ (gateInit 5 2 (some 1)).ratePerMinute = some 1 := by
  refine ⟨by decide, by decide, rfl⟩

/-- C4 (code_bug evidence): the type declaration (batch/types.ts,
`exponentialBackoff?: boolean; // Default: true`) and the user guide document
exponential backoff as the default, as the claim states; but the code's JS
truthiness conditional treats an unset option as disabled: before retry
attempt 2 it computes the constant base delay 1000 ms where the documented
default would give `1000 * 2^(2-1) = 2000` ms. With the option explicitly
true, the exponential formula is used. -/
theorem retry_delay_default_constant :
    retryDelayFor (some rcUnset) 2 = 1000
    ∧ retryDelayFor (some rcExplicit) 2 = 2000
    ∧ retryDelayFor none 2 = 1000 := by
  refine ⟨rfl, rfl, rfl⟩

/-- C7 counterexample: for a batch started with `startIndex = 1` that commits
one row (index 1, success), the processed set has 2 entries while the result
list has length 1 — refuting the claimed equality of processed-set size and
result-list length at every observation point for batches started with
`startIndex > 0`. -/
theorem processed_set_counterexample :
    ¬ ((runBook 1 [(1, true)]).processedRowIndices.length
        = (runBook 1 [(1, true)]).results.length) := by decide

/-- C7 (amended): for a batch not resumed from a snapshot, started with
`startIndex = s`, committing rows with pairwise-distinct indices ≥ s (as
`evaluate` produces), at every observation point the processed-set size equals
`successfulRows + failedRows` and exceeds the result-list length by exactly
`s`; with `s = 0` all three quantities coincide. Every prefix of a valid
commit sequence is itself a valid commit sequence, so quantifying over the
sequence covers every observation point. -/
theorem processed_set_accounting (s : Nat) (cs : List (Nat × Bool))
    (hnd : (cs.map Prod.fst).Nodup) (hge : ∀ c ∈ cs, s ≤ c.1) :
    (runBook s cs).processedRowIndices.length
      = (runBook s cs).successfulRows + (runBook s cs).failedRows
    ∧ (runBook s cs).processedRowIndices.length = (runBook s cs).results.length + s := by
  have hfresh : ∀ c ∈ cs, c.1 ∉ (initBook s).processedRowIndices := by
    intro c hc
    simp only [initBook, List.mem_range]
    have := hge c hc
    omega
  obtain ⟨h1, h2, h3⟩ := runBook_foldl cs (initBook s) hfresh hnd
  simp only [runBook]
  have hi1 : (initBook s).processedRowIndices.length = s := by
    simp [initBook]
  have hi2 : (initBook s).results.length = 0 := rfl
  have hi3 : (initBook s).successfulRows = s := rfl
  have hi4 : (initBook s).failedRows = 0 := rfl
  constructor <;> omega

/-- C2: for a row committed on the success path with streaming enabled (and
the `onResult` callback and state manager configured), the commit steps run in
the strict order sink export, `onResult` (awaited), in-memory append (result
list and processed set), `tracker.recordSuccess`, state update — in particular
the sink has accepted the row before the append; a failure of the sink or of
`onResult` produces no append in that attempt and hands the whole row's error
to the retry classifier `shouldRetry`, which either retries the whole row from
scratch or commits a terminal failure carrying that error. -/
theorem commit_order_streaming (cfg : BatchEvaluatorConfig) (row : Row)
    (idx dur rc : Nat) (outs : List EvaluatorResult) (rest : List AttemptOutcome)
    (hs : cfg.streaming = true) (hr : cfg.hasOnResult = true)
    (hst : cfg.hasState = true) :
    processRowLoop cfg row idx dur
        (AttemptOutcome.evalOk outs (Except.ok ()) (Except.ok ()) :: rest) rc
      = some ([Ev.runEval, Ev.sinkExport, Ev.onResultCall, Ev.commitAppend,
               Ev.trackSuccess, Ev.stateUpdate],
              mkSuccessResult cfg row idx dur rc outs, false)
    ∧ (∀ e cb, attemptOnce cfg row idx dur rc
          (AttemptOutcome.evalOk outs (Except.error e) cb)
        = ([Ev.runEval, Ev.sinkExport], Except.error e))
    ∧ (∀ e, attemptOnce cfg row idx dur rc
          (AttemptOutcome.evalOk outs (Except.ok ()) (Except.error e))
        = ([Ev.runEval, Ev.sinkExport, Ev.onResultCall], Except.error e))
    ∧ (∀ e cb, shouldRetry (cfg.retryConfig.bind fun c => c.retryOnErrors) e rc
          (maxRetriesOf cfg) = false →
        processRowLoop cfg row idx dur
            (AttemptOutcome.evalOk outs (Except.error e) cb :: rest) rc
          = some ([Ev.runEval, Ev.sinkExport, Ev.commitAppend, Ev.trackFailure,
                   Ev.stateUpdate],
                  mkFailureResult cfg row idx dur rc e, cfg.stopOnError))
    ∧ (∀ e cb, shouldRetry (cfg.retryConfig.bind fun c => c.retryOnErrors) e rc
          (maxRetriesOf cfg) = true →
        processRowLoop cfg row idx dur
            (AttemptOutcome.evalOk outs (Except.error e) cb :: rest) rc
          = (processRowLoop cfg row idx dur rest (rc + 1)).map
              (fun t => ([Ev.runEval, Ev.sinkExport, Ev.trackRetry e (rc + 1),
                          Ev.sleepDelay (retryDelayFor cfg.retryConfig (rc + 1))] ++ t.1,
                         t.2))) := by
  refine ⟨?_, ?_, ?_, ?_, ?_⟩
  · simp [processRowLoop, attemptOnce, commitEvents, hs, hr, hst]
  · intro e cb; simp [attemptOnce, hs]
  · intro e; simp [attemptOnce, hs, hr]
  · intro e cb hsr
    simp [processRowLoop, attemptOnce, hs, hsr, hst]
  · intro e cb hsr
    simp [processRowLoop, attemptOnce, hs, hsr]

/-- Witness for C2 at the concrete configuration `cfgFull`, row `rowA`,
outcome list `outsA`: first-attempt success with both commit steps
succeeding. -/
theorem commit_order_streaming_witness :
    processRowLoop cfgFull rowA 0 7
        [AttemptOutcome.evalOk outsA (Except.ok ()) (Except.ok ())] 0
      = some ([Ev.runEval, Ev.sinkExport, Ev.onResultCall, Ev.commitAppend,
               Ev.trackSuccess, Ev.stateUpdate],
              mkSuccessResult cfgFull rowA 0 7 0 outsA, false) :=
  (commit_order_streaming cfgFull rowA 0 7 0 outsA [] rfl rfl rfl).1

/-- C5: per row, at most `1 + maxRetries` evaluator-set attempts are made
(`maxRetries` defaulting to 3 via `maxRetriesOf`); the committed result's
`retryCount` never exceeds `maxRetries`; a retry is denied as soon as the
attempts-made counter passed to `shouldRetry` reaches `maxRetries`;
`maxRetries = 0` yields exactly one attempt; and the loop always terminates
within the budget (an environment of length `maxRetries + 1` always yields a
committed result). -/
theorem retry_budget_bound (cfg : BatchEvaluatorConfig) (row : Row) (idx dur : Nat)
    (env : List AttemptOutcome) (evs : List Ev) (res : BatchEvaluationResult)
    (stop : Bool)
    (h : processRowLoop cfg row idx dur env 0 = some (evs, res, stop)) :
    attemptsOf evs ≤ maxRetriesOf cfg + 1
    ∧ res.retryCount ≤ maxRetriesOf cfg
    ∧ (maxRetriesOf cfg = 0 → attemptsOf evs = 1)
    ∧ (∀ msg rc, maxRetriesOf cfg ≤ rc →
        shouldRetry (cfg.retryConfig.bind fun c => c.retryOnErrors) msg rc
          (maxRetriesOf cfg) = false)
    ∧ (∀ env2 : List AttemptOutcome, maxRetriesOf cfg + 1 ≤ env2.length →
        (processRowLoop cfg row idx dur env2 0).isSome = true) := by
  obtain ⟨b1, b2, b3⟩ := processRowLoop_budget cfg row idx dur env 0 evs res stop
    (Nat.zero_le _) h
  refine ⟨by omega, b3, by omega, ?_, ?_⟩
  · intro msg rc hrc
    exact shouldRetry_denied _ msg rc _ hrc
  · intro env2 hlen
    exact processRowLoop_total cfg row idx dur env2 0 (Nat.zero_le _) (by omega)

/-- Witness for C5: `cfgBare` (`maxRetries = 2`), a retryable failure followed
by a non-retryable one: two attempts within the budget of three, final
`retryCount = 1 ≤ 2`. -/
theorem retry_budget_bound_witness :
    attemptsOf evsTwoFail ≤ maxRetriesOf cfgBare + 1
    ∧ (mkFailureResult cfgBare rowX 0 7 1 "schema violation").retryCount
        ≤ maxRetriesOf cfgBare :=
  have h := retry_budget_bound cfgBare rowX 0 7 envTwoFail evsTwoFail
    (mkFailureResult cfgBare rowX 0 7 1 "schema violation") false (by rfl)
  ⟨h.1, h.2.1⟩

/-- C6: a row result committed on the success path stores the merged effective
input (lookups on the stored input find the row's value where present and the
default's value otherwise — row fields override `defaultInput` fields); a row
result committed on terminal failure stores the raw pre-merge row, an empty
outcomes list, the message of the last failed attempt, and the combined-score
sentinel `"N/A"` exactly when a combiner is configured. -/
theorem rowResult_content (cfg : BatchEvaluatorConfig) (row : Row) (idx dur : Nat)
    (env : List AttemptOutcome) (evs : List Ev) (res : BatchEvaluationResult)
    (stop : Bool)
    (h : processRowLoop cfg row idx dur env 0 = some (evs, res, stop)) :
    (res.error = none →
      res.input = spreadMerge cfg.defaultInput row
      ∧ ∀ k, res.input.lookup k
          = (match row.lookup k with
             | some v => some v
             | none => cfg.defaultInput.lookup k))
    ∧ (∀ m, res.error = some m →
        res.input = row ∧ res.results = []
        ∧ res.score = (if cfg.calculateCombinedScore.isSome then some Score.na else none)
        ∧ (env[attemptsOf evs - 1]?).bind (fun a => attemptErr cfg a) = some m) := by
  rcases processRowLoop_shape cfg row idx dur env 0 evs res stop h with
    ⟨rc2, outs, hres⟩ | ⟨rc2, m2, hres⟩
  · subst hres
    constructor
    · intro _
      refine ⟨rfl, ?_⟩
      intro k
      simpa [mkSuccessResult] using spreadMerge_lookup cfg.defaultInput row k
    · intro m hm
      simp [mkSuccessResult] at hm
  · subst hres
    constructor
    · intro hne
      simp [mkFailureResult] at hne
    · intro m hm
      simp only [mkFailureResult, Option.some.injEq] at hm
      subst hm
      refine ⟨rfl, rfl, rfl, ?_⟩
      exact processRowLoop_lastError cfg row idx dur env 0 evs
        (mkFailureResult cfg row idx dur rc2 m2) stop m2 h rfl

/-- Witness for C6: `cfgBare` (combiner configured), a single non-retryable
failure: the terminal result stores the raw row, empty outcomes, score
`"N/A"`, and the message of the only attempt. -/
theorem rowResult_content_witness :
    (mkFailureResult cfgBare rowX 0 7 0 "schema violation").input = rowX
    ∧ (mkFailureResult cfgBare rowX 0 7 0 "schema violation").results = []
    ∧ (mkFailureResult cfgBare rowX 0 7 0 "schema violation").score
        = (if cfgBare.calculateCombinedScore.isSome then some Score.na else none)
    ∧ (envOneFail[attemptsOf [Ev.runEval, Ev.commitAppend, Ev.trackFailure] - 1]?).bind
        (fun a => attemptErr cfgBare a) = some "schema violation" :=
  (rowResult_content cfgBare rowX 0 7 envOneFail
    [Ev.runEval, Ev.commitAppend, Ev.trackFailure]
    (mkFailureResult cfgBare rowX 0 7 0 "schema violation") false (by rfl)).2
    "schema violation" rfl

/-- Witness for the amended C7 theorem: `startIndex = 1`, one success and one
failure committed at fresh indices. -/
theorem processed_set_accounting_witness :
    (runBook 1 [(1, true), (2, false)]).processedRowIndices.length
      = (runBook 1 [(1, true), (2, false)]).successfulRows
        + (runBook 1 [(1, true), (2, false)]).failedRows
    ∧ (runBook 1 [(1, true), (2, false)]).processedRowIndices.length
      = (runBook 1 [(1, true), (2, false)]).results.length + 1 :=
  processed_set_accounting 1 [(1, true), (2, false)] (by decide) (by decide)

/-- C8: the final `BatchResult` satisfies: `totalRows` equals the result-list
length; `successfulRows` counts the results whose `error` field is JS-falsy
and `failedRows` the complement (so the two always sum to the total);
`averageProcessingTime` is the arithmetic mean of per-row durations (stated
multiplicatively, with the value 0 pinned for the empty list);
`totalTokensUsed` is reported exactly when the summed per-outcome token totals
are strictly positive; `errorRate × totalRows = failedRows` (0 for an empty
batch); and an empty input yields all counts 0, error rate 0, and an empty
result list. -/
theorem buildResult_assembly (rs : List BatchEvaluationResult) :
    (buildResult rs).totalRows = rs.length
    ∧ (buildResult rs).results = rs
    ∧ (buildResult rs).successfulRows = rs.countP (fun r => !hasError r)
    ∧ (buildResult rs).failedRows = rs.countP (fun r => hasError r)
    ∧ (buildResult rs).successfulRows + (buildResult rs).failedRows = rs.length
    ∧ (buildResult rs).summary.averageProcessingTime * (rs.length : ℚ)
        = (((rs.map (fun r => r.durationMs)).sum : Nat) : ℚ)
    ∧ (∀ t, (buildResult rs).summary.totalTokensUsed = some t ↔
        (t = (rs.map (fun r => (r.results.map (fun e => e.tokenTotal.getD 0)).sum)).sum
          ∧ 0 < t))
    ∧ (buildResult rs).summary.errorRate * (rs.length : ℚ)
        = (((buildResult rs).failedRows : Nat) : ℚ)
    ∧ (buildResult []).totalRows = 0
    ∧ (buildResult []).successfulRows = 0
    ∧ (buildResult []).failedRows = 0
    ∧ (buildResult []).results = ([] : List BatchEvaluationResult)
    ∧ (buildResult []).summary.errorRate = 0
    ∧ (buildResult []).summary.averageProcessingTime = 0 := by
  refine ⟨rfl, rfl, ?_, ?_, ?_, ?_, ?_, ?_, rfl, rfl, rfl, rfl, rfl, rfl⟩
  · simp [buildResult, List.countP_eq_length_filter]
  · simp [buildResult, List.countP_eq_length_filter]
  · simp only [buildResult]
    have h2 : rs.length = (rs.filter (fun r => hasError r)).length
        + (rs.filter (fun r => !hasError r)).length :=
      List.length_eq_length_filter_add _
    omega
  · by_cases hn : rs = []
    · subst hn; simp [buildResult]
    · have hlen : 0 < rs.length := List.length_pos.mpr hn
      have hb : (rs.length : ℚ) ≠ 0 := by
        exact_mod_cast Nat.pos_iff_ne_zero.mp hlen
      simp only [buildResult, List.length_map]
      rw [if_pos hlen]
      rw [foldl_add_eq_sum]
      rw [div_mul_cancel₀ _ hb]
      simp
  · intro t
    have hfold : (rs.foldl (fun sum r =>
        sum + r.results.foldl (fun rSum e => rSum + e.tokenTotal.getD 0) 0) 0)
      = (rs.map (fun r => (r.results.map (fun e => e.tokenTotal.getD 0)).sum)).sum := by
      have hfun : (fun (sum : Nat) (r : BatchEvaluationResult) =>
          sum + r.results.foldl (fun rSum e => rSum + e.tokenTotal.getD 0) 0)
        = (fun (sum : Nat) (r : BatchEvaluationResult) =>
          sum + (r.results.map (fun e => e.tokenTotal.getD 0)).sum) := by
        funext s r
        simp only [foldl_add_map]
        omega
      rw [hfun]
      simp only [foldl_add_map]
      omega
    simp only [buildResult]
    rw [hfold]
    by_cases hpos :
      0 < (rs.map (fun r => (r.results.map (fun e => e.tokenTotal.getD 0)).sum)).sum
    · rw [if_pos hpos]
      constructor
      · intro he
        cases he
        exact ⟨rfl, hpos⟩
      · intro he
        rw [he.1]
    · rw [if_neg hpos]
      constructor
      · intro he; cases he
      · intro he
        rw [he.1] at he
        exact absurd he.2 hpos
  · by_cases hn : rs = []
    · subst hn; simp [buildResult]
    · have hlen : 0 < rs.length := List.length_pos.mpr hn
      have hb : (rs.length : ℚ) ≠ 0 := by
        exact_mod_cast Nat.pos_iff_ne_zero.mp hlen
      simp only [buildResult]
      rw [if_pos hlen]
      rw [div_mul_cancel₀ _ hb]

/-- C9 counterexample: with `webhookOptions.retryOnFailure` explicitly false,
a failed webhook export is not retried at all (a single fetch, then the error
is logged), refuting the claim that a failed webhook export is always retried
exactly once. -/
theorem webhook_retry_counterexample :
    ¬ ((exportToWebhook { retryOnFailure := some false }
          (FetchOutcome.netError "ECONNRESET") (FetchOutcome.status 200)).1.count
        SinkEvent.fetchCall = 2) := by decide

/-- C9 (amended): for a webhook streaming destination with `retryOnFailure`
unset or true (it defaults to true), a failed export (network failure or
non-2xx status) is retried exactly once — two fetches separated by a 1000 ms
sleep — and a failure of the retry is logged while the call still returns
normally, so the orchestrator commits the row; with `retryOnFailure`
explicitly false the failure is logged and swallowed without any retry; a
webhook export never propagates an error. File-based streaming failures, by
contrast, propagate to the row's retry loop. -/
theorem webhook_retry_behavior (opts : WebhookOptions) (first second : FetchOutcome)
    (hfail : fetchOk first = false) :
    (opts.retryOnFailure.getD true = true →
      exportToWebhook opts first second
        = (if fetchOk second then
             ([SinkEvent.fetchCall, SinkEvent.sleepMs 1000, SinkEvent.fetchCall],
              Except.ok ())
           else
             ([SinkEvent.fetchCall, SinkEvent.sleepMs 1000, SinkEvent.fetchCall,
               SinkEvent.logError ("Failed to export result to webhook: "
                 ++ retryErrMsg second)], Except.ok ()))
      ∧ (exportToWebhook opts first second).1.count SinkEvent.fetchCall = 2)
    ∧ (opts.retryOnFailure = some false →
        exportToWebhook opts first second
          = ([SinkEvent.fetchCall,
              SinkEvent.logError ("Failed to export result to webhook: "
                ++ fetchErrMsg first)], Except.ok ()))
    ∧ (exportToWebhook opts first second).2 = Except.ok ()
    ∧ (∀ e, exportResult StreamFormat.csv true (Except.error e) opts first second
        = ([SinkEvent.fileAppend], Except.error e)
      ∧ exportResult StreamFormat.json true (Except.error e) opts first second
        = ([SinkEvent.fileAppend], Except.error e)) := by
  refine ⟨?_, ?_, ?_, ?_⟩
  · intro hretry
    constructor
    · cases hok2 : fetchOk second <;>
        simp [exportToWebhook, hfail, hretry, hok2]
    · cases hok2 : fetchOk second <;>
        simp [exportToWebhook, hfail, hretry, hok2, List.count_cons, List.count_nil]
  · intro hfalse
    simp [exportToWebhook, hfail, hfalse]
  · cases hr : opts.retryOnFailure.getD true <;> cases hok2 : fetchOk second <;>
      simp [exportToWebhook, hfail, hr, hok2]
  · intro e
    exact ⟨rfl, rfl⟩

/-- Witness for C9 at default options (`retryOnFailure` unset): the first
fetch fails with status 500, the retry succeeds with status 204; and a csv
write failure propagates. -/
theorem webhook_retry_behavior_witness :
    exportToWebhook { retryOnFailure := none } (FetchOutcome.status 500)
        (FetchOutcome.status 204)
      = ([SinkEvent.fetchCall, SinkEvent.sleepMs 1000, SinkEvent.fetchCall],
         Except.ok ())
    ∧ exportResult StreamFormat.csv true (Except.error "EACCES")
        { retryOnFailure := none } (FetchOutcome.status 500) (FetchOutcome.status 204)
      = ([SinkEvent.fileAppend], Except.error "EACCES") := by
  have h := webhook_retry_behavior { retryOnFailure := none } (FetchOutcome.status 500)
    (FetchOutcome.status 204) (by decide)
  constructor
  · have h1 := (h.1 rfl).1
    rw [if_pos (by decide : fetchOk (FetchOutcome.status 204) = true)] at h1
    exact h1
  · exact (h.2.2.2 "EACCES").1

/-- C10: for a tracker constructed over an empty input (`totalRows = 0`,
nothing processed) with a progress callback configured, `percentComplete` is
the unguarded `processedRows / totalRows * 100 = (0/0) * 100 = NaN` — in
`getCurrentProgress` and in every emitted `ProgressEvent` — and the `started`
and `completed` events still fire, carrying the NaN percentage. -/
theorem percent_complete_nan_on_empty (st : ProgressTrackerState)
    (h0 : st.totalRows = 0) (h1 : st.processedRows = 0)
    (hcb : st.hasOnProgress = true) :
    percentComplete st = JsNum.nan
    ∧ (getCurrentProgress st).percentComplete = JsNum.nan
    ∧ (∀ t, emit st t = some (mkProgressEvent st t)
        ∧ (mkProgressEvent st t).percentComplete = JsNum.nan)
    ∧ trackerStart st = some (mkProgressEvent st ProgressEventType.started)
    ∧ trackerComplete st = some (mkProgressEvent st ProgressEventType.completed) := by
  have hp : percentComplete st = JsNum.nan := by
    simp [percentComplete, h0, h1, jsDiv, jsMul]
  refine ⟨hp, ?_, ?_, ?_, ?_⟩
  · simp [getCurrentProgress, mkProgressEvent, hp]
  · intro t
    exact ⟨by simp [emit, hcb], by simp [mkProgressEvent, hp]⟩
  · simp [trackerStart, emit, hcb]
  · simp [trackerComplete, emit, hcb]

/-- Witness for C10 at the concrete empty-input tracker state. -/
theorem percent_complete_nan_witness :
    percentComplete trackerEmpty = JsNum.nan
    ∧ (getCurrentProgress trackerEmpty).percentComplete = JsNum.nan
    ∧ trackerStart trackerEmpty
        = some (mkProgressEvent trackerEmpty ProgressEventType.started) :=
  have h := percent_complete_nan_on_empty trackerEmpty rfl rfl rfl
  ⟨h.1, h.2.1, h.2.2.2.1⟩

end EvalKit
